import Mathlib

/-!
Verification of the flacr batch FLAC re-encoder/verifier.

The development shallowly embeds the core pipeline of `flacr.py`:
the filesystem is a map from paths to file sizes, the two external
commands (the encoder and the decoder check) are abstracted by their
observable result (exit class plus captured diagnostic text plus the
state of the temporary output file), and the per-file job executors
`verify_flac` / `reencode_flac`, the command-line builders, the
version gate, the error logging, and the aggregation loop of `main`
are translated into pure Lean functions.
-/

/-- A filesystem state: each path either holds a regular file of a given
size in bytes, or no file at all. -/
abbrev FS := String → Option Nat

/-- Removing the file at path `p` (models `os.remove`). -/
def FS.remove (fs : FS) (p : String) : FS :=
  fun q => if q = p then none else fs q

/-- Setting the contents at path `p` to `v` (used to account for what the
external encoder left at the temporary path). -/
def FS.setOpt (fs : FS) (p : String) (v : Option Nat) : FS :=
  fun q => if q = p then v else fs q

/-- Renaming `src` to `dst` (models `os.rename`): afterwards `dst` holds what
`src` held and `src` is gone. -/
def FS.rename (fs : FS) (src dst : String) : FS :=
  fun q => if q = dst then fs src else if q = src then none else fs q

/-- Removing the file at `p` only when it exists: models the guarded
`if os.path.exists(temp): os.remove(temp)` cleanup in `reencode_flac`. -/
def FS.removeIfExists (fs : FS) (p : String) : FS :=
  if (fs p).isSome then FS.remove fs p else fs

/-- Observable result of one external-command invocation: `success` is a
zero exit status carrying the captured stderr text, `failure` is a
non-zero exit or a timeout carrying the text taken from the exception
(`getattr(e, 'stderr', str(e))`). -/
inductive CmdResult where
  | success (stderrText : String)
  | failure (stderrText : String)
deriving DecidableEq

/-- The diagnostic text the executor reads off a command result. -/
def CmdResult.errText : CmdResult → String
  | CmdResult.success s => s
  | CmdResult.failure s => s

/-- Whether the executor treats the command as failed: non-zero exit or
timeout always, zero exit exactly when it emitted diagnostic text
(the `if result.stderr:` branch). -/
def CmdResult.failed : CmdResult → Bool
  | CmdResult.success s => !decide (s = "")
  | CmdResult.failure _ => true

/-- One per-file result tuple `(file_path, stderr, size_before, size_after)`
as returned by `verify_flac` / `reencode_flac`; the size slots are `None`
for verify jobs. -/
structure JobOutcome where
  path : String
  stderrText : String
  sizeBefore : Option Nat
  sizeAfter : Option Nat
deriving DecidableEq

/-- The verify job executor (`verify_flac`): it runs `flac -t --silent` and
returns the captured diagnostic text with `None` size slots; both the
normal return and the exception handler produce the same shape. It makes
no filesystem call. -/
def verify_flac (file_path : String) (res : CmdResult) : JobOutcome :=
  match res with
  | CmdResult.success s => ⟨file_path, s, none, none⟩
  | CmdResult.failure s => ⟨file_path, s, none, none⟩

/-- The re-encode job executor (`reencode_flac`) as a filesystem transition.
Inputs beyond the state: the encoder invocation's result `res`, the state
`tempAfter` of the temporary output path right after the invocation, and
whether deleting the original raises `PermissionError` (`locked`).
`none` is returned exactly when an exception escapes the function
(the original vanished before the initial `os.path.getsize`, or the
encoder reported clean success yet left no temp file for the second
`os.path.getsize`). -/
def reencode_flac (fs : FS) (file_path : String) (res : CmdResult)
    (tempAfter : Option Nat) (locked : Bool) : Option (JobOutcome × FS) :=
  match fs file_path with
  | none => none
  | some original_size =>
    let temp_file_path := file_path ++ ".tmp"
    let fs1 := FS.setOpt fs temp_file_path tempAfter
    match res with
    | CmdResult.success stderrText =>
      if stderrText = "" then
        match tempAfter with
        | none => none
        | some new_size =>
          if locked then
            some (⟨file_path, "File locked. Manual replacement required.",
                   some original_size, some original_size⟩, fs1)
          else
            some (⟨file_path, "", some original_size, some new_size⟩,
                  FS.rename (FS.remove fs1 file_path) temp_file_path file_path)
      else
        some (⟨file_path, stderrText, some original_size, some original_size⟩,
              FS.removeIfExists fs1 temp_file_path)
    | CmdResult.failure stderrText =>
      some (⟨file_path, stderrText, some original_size, some original_size⟩,
            FS.removeIfExists fs1 temp_file_path)

/-- The option part of the encoder command line built by `reencode_flac`
(lines 128-133): the fixed flags, plus `--threads=<n>` exactly when the
hint exceeds 1. -/
def reencode_options (thread_count : Nat) : List String :=
  let command := ["flac", "--best", "--verify", "--padding=4096", "--silent"]
  if 1 < thread_count then
    command ++ ["--threads=" ++ toString thread_count]
  else
    command

/-- The full encoder command line: options followed by the input path,
`-o`, and the temporary output path. -/
def reencode_command (file_path : String) (thread_count : Nat) : List String :=
  reencode_options thread_count ++ [file_path, "-o", file_path ++ ".tmp"]

/-- Thread-count hint used for each job submitted in fan-out mode: `main`
submits `reencode_flac(filepath)` with the parameter left at its
default of 1. -/
def fanout_thread_hint : Nat := 1

/-- The loudness-tag command line built by `run_rsgain`: the thread count
is bumped to 2 when it is 1. -/
def rsgain_command (directory : String) (thread_count : Nat) : List String :=
  ["rsgain", "easy", "-m",
   toString (if thread_count = 1 then 2 else thread_count), directory]

/-- The list of error entries appended to `flacr_error.log` by `write_log`:
nothing when there are no errors, nothing (after a console notice) when
the current directory is not writable, otherwise every entry. -/
def write_log (cwdWritable : Bool) (elog : List (String × String)) :
    List (String × String) :=
  if elog.isEmpty then []
  else if !cwdWritable then []
  else elog

/-- What the end of `main` does with the error list: entries appended to the
log file and entries printed individually to the console. -/
structure LogEffect where
  appendedToFile : List (String × String)
  printedErrors : List (String × String)
deriving DecidableEq

/-- Error reporting at the end of `main` (lines 345-349): with `-l` the
errors go through `write_log`, otherwise each is printed. -/
def report_errors (log_to_disk cwdWritable : Bool)
    (elog : List (String × String)) : LogEffect :=
  if log_to_disk then ⟨write_log cwdWritable elog, []⟩
  else ⟨[], elog⟩

/-- ASCII digit test, the `\d` of the version pattern on the tool's ASCII
output. -/
def isDig (c : Char) : Bool := decide ('0' ≤ c) && decide (c ≤ '9')

/-- Splitting off the maximal leading run of digits. -/
def grabDigits : List Char → List Char × List Char
  | [] => ([], [])
  | c :: cs =>
    if isDig c then
      let r := grabDigits cs
      (c :: r.1, r.2)
    else ([], c :: cs)

/-- Whether the text starts with a literal dot followed by a digit, the
trailing `\.\d+` of both alternatives of the version pattern. -/
def dotDigit : List Char → Bool
  | '.' :: c :: _ => isDig c
  | _ => false

/-- Stripping an expected literal off the front of the text. -/
def dropLit : List Char → List Char → Option (List Char)
  | [], cs => some cs
  | _ :: _, [] => none
  | p :: ps, c :: cs => if c = p then dropLit ps cs else none

/-- The part of the version pattern after `flac 1.`: the minor number is a
run of digits that either has at least two digits or is a single digit in
5..9, followed by a dot and a digit (`([5-9]|\d\x7b2,\x7d)\.\d+`). -/
def minorMatch (rest : List Char) : Bool :=
  let g := grabDigits rest
  (!g.1.isEmpty)
    && (decide (2 ≤ g.1.length)
        || (decide ('5' ≤ g.1.headD '0') && decide (g.1.headD '0' ≤ '9')))
    && dotDigit g.2

/-- The part of the version pattern after `flac ` in the second alternative:
a single major digit 2..9, a dot, a digit run, a dot, a digit
(`[2-9]\.\d+\.\d+`). -/
def majorTwoMatch : List Char → Bool
  | c :: '.' :: rest =>
    decide ('2' ≤ c) && decide (c ≤ '9')
      && (let g := grabDigits rest
          (!g.1.isEmpty) && dotDigit g.2)
  | _ => false

/-- The version gate of `flac_version_check`: whether `re.search` finds the
anchored pattern `flac 1.(5-9 or two+ digits).digits` or
`flac (2-9).digits.digits` in the reported version text. -/
def flac_version_ok (s : String) : Bool :=
  (match dropLit "flac 1.".data s.data with
   | some rest => minorMatch rest
   | none => false)
  || (match dropLit "flac ".data s.data with
      | some rest => majorTwoMatch rest
      | none => false)

/-- The configuration slice of the parsed arguments that the core pipeline
of `main` consumes. -/
structure Config where
  test_run : Bool
  j : Bool
  calc_rsgain : Bool
  thread_count : Nat
deriving DecidableEq

/-- The accumulated state `main` holds after the dispatch loop and the
follow-up actions: outcomes in completion order, the error log, the
error counter, the size statistics, and the loudness-tag invocations. -/
structure MainResult where
  outcomes : List JobOutcome
  errorLog : List (String × String)
  errorCount : Nat
  sizeStats : List (Option Nat × Option Nat)
  rsgainCalls : List (List String)
deriving DecidableEq

/-- The error-log entries accumulated by the dispatch loop: one `(path,
stderr)` pair per outcome whose diagnostic text is truthy (non-empty). -/
def error_entries (l : List JobOutcome) : List (String × String) :=
  l.filterMap (fun o => if o.stderrText = "" then none else some (o.path, o.stderrText))

/-- The size-statistics entries accumulated by the re-encode loops: the
`(original_size, new_size)` pair of each outcome in completion order. -/
def size_entries (l : List JobOutcome) : List (Option Nat × Option Nat) :=
  l.map (fun o => (o.sizeBefore, o.sizeAfter))

/-- Cumulative before-size over the accumulated statistics
(`sum(before for before, after in size_stats)`). -/
def stats_before (st : List (Option Nat × Option Nat)) : Nat :=
  (st.map (fun e => e.1.getD 0)).sum

/-- Cumulative after-size over the accumulated statistics. -/
def stats_after (st : List (Option Nat × Option Nat)) : Nat :=
  (st.map (fun e => e.2.getD 0)).sum

/-- The dispatch phase of `main`: in test mode the verify jobs are fanned
out over a pool and observed in some completion order (`reorder`); in
re-encode mode with `-j` the version gate runs first and the files are
processed one at a time in discovery order with the full thread count;
otherwise the re-encode jobs are fanned out with the default hint of 1.
`versionOut` is the captured output of `flac --version` (`none` models
the query timing out); `none` overall models the fatal `sys.exit` of the
gate. `vres` gives each file's decode-check result, `re` each file's
re-encode outcome as a function of the thread hint. -/
def dispatch_run (cfg : Config) (versionOut : Option String)
    (files : List String) (vres : String → CmdResult)
    (re : String → Nat → JobOutcome)
    (reorder : List JobOutcome → List JobOutcome) : Option (List JobOutcome) :=
  if cfg.test_run then
    some (reorder (files.map (fun f => verify_flac f (vres f))))
  else if cfg.j then
    match versionOut with
    | some out =>
      if flac_version_ok out then
        some (files.map (fun f => re f cfg.thread_count))
      else
        none
    | none => none
  else
    some (reorder (files.map (fun f => re f fanout_thread_hint)))

/-- Accumulation over one completed dispatch: the error log collects the
truthy diagnostics, the error counter tracks its length, the size
statistics are recorded only outside test mode, and the loudness-tag
command runs once when `calc_rsgain and not test_run and not error_log`. -/
def assemble (cfg : Config) (directory : String)
    (outcomes : List JobOutcome) : MainResult :=
  let elog := error_entries outcomes
  ⟨outcomes, elog, elog.length,
   if cfg.test_run then [] else size_entries outcomes,
   if cfg.calc_rsgain && !cfg.test_run && elog.isEmpty then
     [rsgain_command directory cfg.thread_count]
   else []⟩

/-- The core of `main` after discovery: dispatch, accumulation of the error
log and size statistics, and the conditional single loudness-tag
invocation; `none` is the fatal pre-flight exit of the version gate. -/
def main_run (cfg : Config) (directory : String) (versionOut : Option String)
    (files : List String) (vres : String → CmdResult)
    (re : String → Nat → JobOutcome)
    (reorder : List JobOutcome → List JobOutcome) : Option MainResult :=
  (dispatch_run cfg versionOut files vres re reorder).map (assemble cfg directory)

/-- A whole verify run over a file set: one `verify_flac` outcome per file;
the executor makes no filesystem call, so the state passes through. -/
def run_verify (fs : FS) (files : List String) (vres : String → CmdResult) :
    List JobOutcome × FS :=
  (files.map (fun f => verify_flac f (vres f)), fs)

/-- Whether the compression report is rendered (`if not test_run and
size_stats:` at line 359). -/
def compression_report_shown (cfg : Config) (res : MainResult) : Bool :=
  !cfg.test_run && !res.sizeStats.isEmpty

/-- Concrete one-file filesystem used by the evaluation witnesses. -/
def fsA : FS := fun q => if q = "a.flac" then some 100 else none

/-- Concrete decode-check environment with clean results. -/
def vresOk : String → CmdResult := fun _ => CmdResult.success ""

/-- Concrete re-encode outcome environment with clean results. -/
def reOk : String → Nat → JobOutcome := fun f _ => ⟨f, "", some 10, some 6⟩

/-- Fan-out re-encode configuration used by an evaluation witness. -/
def cfgFan : Config := ⟨false, false, false, 2⟩

/-- Sequential-wide re-encode configuration with loudness tagging, used by
an evaluation witness. -/
def cfgSeq : Config := ⟨false, true, true, 1⟩

/-- Sequential-wide configuration without loudness tagging, used by the
version-gate witness. -/
def cfgGate : Config := ⟨false, true, false, 4⟩

/-- Verify-mode configuration used by an evaluation witness. -/
def cfgTest : Config := ⟨true, false, false, 1⟩

/-- The accumulated state of the concrete fan-out run observed in reversed
completion order. -/
def resFan : MainResult :=
  ⟨[⟨"b.flac", "", some 10, some 6⟩, ⟨"a.flac", "", some 10, some 6⟩],
   [], 0, [(some 10, some 6), (some 10, some 6)], []⟩

/-- The accumulated state of the concrete sequential-wide run. -/
def resSeq : MainResult :=
  ⟨[⟨"a.flac", "", some 10, some 6⟩], [], 0, [(some 10, some 6)],
   [["rsgain", "easy", "-m", "2", "d"]]⟩

/-- The accumulated state of the concrete verify run. -/
def resTest : MainResult :=
  ⟨[⟨"a.flac", "", none, none⟩], [], 0, [], []⟩

theorem tmp_path_ne (p : String) : p ++ ".tmp" ≠ p := by
  intro h
  have hlen := congrArg String.length h
  rw [String.length_append] at hlen
  have h4 : (".tmp" : String).length = 4 := rfl
  omega


theorem FS.removeIfExists_self (fs : FS) (p : String) :
    FS.removeIfExists fs p p = none := by
  cases h : fs p <;> simp [FS.removeIfExists, FS.remove, h]

theorem FS.removeIfExists_other (fs : FS) (p q : String) (h : q ≠ p) :
    FS.removeIfExists fs p q = fs q := by
  cases hp : fs p <;> simp [FS.removeIfExists, FS.remove, hp, h]

theorem FS.setOpt_self (fs : FS) (p : String) (v : Option Nat) :
    FS.setOpt fs p v p = v := by
  simp [FS.setOpt]

theorem FS.setOpt_other (fs : FS) (p q : String) (v : Option Nat) (h : q ≠ p) :
    FS.setOpt fs p v q = fs q := by
  simp [FS.setOpt, h]

/-- C1: a re-encode job whose external encode command succeeds with no
diagnostic text and whose delete/rename replacement is not blocked leaves
exactly one file, at the original path (the temp path is empty, the
original path holds the new file), and reports the stat-read sizes of the
original file and of the temp file as before- and after-size. -/
theorem reencode_success_single_file (fs : FS) (p : String) (sb sa : Nat)
    (hp : fs p = some sb) :
    ∃ fs', reencode_flac fs p (CmdResult.success "") (some sa) false
        = some (⟨p, "", some sb, some sa⟩, fs')
      ∧ fs' p = some sa
      ∧ fs' (p ++ ".tmp") = none := by
  refine ⟨FS.rename (FS.remove (FS.setOpt fs (p ++ ".tmp") (some sa)) p)
            (p ++ ".tmp") p, ?_, ?_, ?_⟩
  · simp [reencode_flac, hp]
  · simp [FS.rename, FS.remove, FS.setOpt, tmp_path_ne p]
  · simp [FS.rename, FS.remove, FS.setOpt, tmp_path_ne p]

/-- C1 witness: concrete successful re-encode of a 100-byte file producing
a 60-byte temp file. -/
theorem reencode_success_single_file_w :
    ∃ fs', reencode_flac fsA "a.flac" (CmdResult.success "") (some 60) false
        = some (⟨"a.flac", "", some 100, some 60⟩, fs')
      ∧ fs' "a.flac" = some 60
      ∧ fs' ("a.flac" ++ ".tmp") = none :=
  reencode_success_single_file fsA "a.flac" 100 60 rfl

/-- C3 (amended): when the external encode command fails — non-zero exit,
timeout, or zero exit with diagnostic text — the job returns, without any
exception escaping, an outcome whose diagnostic is exactly the captured
error text (non-empty whenever the command emitted any), with before-size
equal to after-size; the temp file is deleted if it exists and the
original file and every other path are left untouched. -/
theorem reencode_failure_outcome (fs : FS) (p : String) (sb : Nat)
    (res : CmdResult) (tempAfter : Option Nat) (locked : Bool)
    (hp : fs p = some sb) (hf : res.failed = true) :
    ∃ fs', reencode_flac fs p res tempAfter locked
        = some (⟨p, res.errText, some sb, some sb⟩, fs')
      ∧ fs' (p ++ ".tmp") = none
      ∧ fs' p = some sb
      ∧ ∀ q, q ≠ p ++ ".tmp" → fs' q = fs q := by
  have hstep : ∀ q, q ≠ p ++ ".tmp" →
      FS.removeIfExists (FS.setOpt fs (p ++ ".tmp") tempAfter) (p ++ ".tmp") q
        = fs q := by
    intro q hq
    rw [FS.removeIfExists_other _ _ _ hq, FS.setOpt_other _ _ _ _ hq]
  cases res with
  | success s =>
    have hs : ¬(s = "") := by simpa [CmdResult.failed] using hf
    refine ⟨FS.removeIfExists (FS.setOpt fs (p ++ ".tmp") tempAfter)
              (p ++ ".tmp"), ?_, ?_, ?_, hstep⟩
    · simp [reencode_flac, hp, hs, CmdResult.errText]
    · exact FS.removeIfExists_self _ _
    · rw [hstep p (fun h => tmp_path_ne p h.symm), hp]
  | failure s =>
    refine ⟨FS.removeIfExists (FS.setOpt fs (p ++ ".tmp") tempAfter)
              (p ++ ".tmp"), ?_, ?_, ?_, hstep⟩
    · simp [reencode_flac, hp, CmdResult.errText]
    · exact FS.removeIfExists_self _ _
    · rw [hstep p (fun h => tmp_path_ne p h.symm), hp]

/-- C3 witness: concrete failed encode (non-zero exit with captured text
"boom") over a 100-byte file with a half-written 50-byte temp file. -/
theorem reencode_failure_outcome_w :
    ∃ fs', reencode_flac fsA "a.flac" (CmdResult.failure "boom") (some 50) false
        = some (⟨"a.flac", "boom", some 100, some 100⟩, fs')
      ∧ fs' ("a.flac" ++ ".tmp") = none
      ∧ fs' "a.flac" = some 100
      ∧ ∀ q, q ≠ "a.flac" ++ ".tmp" → fs' q = fsA q :=
  reencode_failure_outcome fsA "a.flac" 100 (CmdResult.failure "boom")
    (some 50) false rfl rfl

/-- C3 counterexample: a failing encode command that emitted no diagnostic
text yields an outcome whose diagnostic is the empty string, so the
claim's "non-empty diagnostic" does not hold for every failed job. -/
theorem reencode_silent_failure_empty_diag :
    (CmdResult.failure "").failed = true
    ∧ ((reencode_flac fsA "a.flac" (CmdResult.failure "") none false).map
        (fun r => r.1.stderrText)) = some "" := by
  exact ⟨rfl, rfl⟩

/-- C4: when the encode command succeeds but the original file is locked by
another process so that replacement raises `PermissionError`, the job
returns the distinguished "manual replacement required" outcome with
before-size equal to after-size, and both the original file and the temp
file remain in place. -/
theorem reencode_locked_both_files (fs : FS) (p : String) (sb sa : Nat)
    (hp : fs p = some sb) :
    ∃ fs', reencode_flac fs p (CmdResult.success "") (some sa) true
        = some (⟨p, "File locked. Manual replacement required.",
                 some sb, some sb⟩, fs')
      ∧ fs' p = some sb
      ∧ fs' (p ++ ".tmp") = some sa := by
  refine ⟨FS.setOpt fs (p ++ ".tmp") (some sa), ?_, ?_, ?_⟩
  · simp [reencode_flac, hp]
  · rw [FS.setOpt_other _ _ _ _ (fun h => tmp_path_ne p h.symm), hp]
  · exact FS.setOpt_self _ _ _

/-- C4 witness: concrete locked replacement over a 100-byte file with a
60-byte temp file. -/
theorem reencode_locked_both_files_w :
    ∃ fs', reencode_flac fsA "a.flac" (CmdResult.success "") (some 60) true
        = some (⟨"a.flac", "File locked. Manual replacement required.",
                 some 100, some 100⟩, fs')
      ∧ fs' "a.flac" = some 100
      ∧ fs' ("a.flac" ++ ".tmp") = some 60 :=
  reencode_locked_both_files fsA "a.flac" 100 60 rfl

theorem dispatch_run_length
    (cfg : Config) (versionOut : Option String) (files : List String)
    (vres : String → CmdResult) (re : String → Nat → JobOutcome)
    (reorder : List JobOutcome → List JobOutcome) (out : List JobOutcome)
    (hperm : ∀ l, (reorder l).Perm l)
    (h : dispatch_run cfg versionOut files vres re reorder = some out) :
    out.length = files.length := by
  unfold dispatch_run at h
  split at h
  · rw [Option.some.injEq] at h
    subst h
    exact ((hperm _).length_eq).trans (by simp)
  · split at h
    · split at h
      · split at h
        · rw [Option.some.injEq] at h
          subst h
          simp
        · cases h
      · cases h
    · rw [Option.some.injEq] at h
      subst h
      exact ((hperm _).length_eq).trans (by simp)

theorem error_entries_perm {l₁ l₂ : List JobOutcome} (h : l₁.Perm l₂) :
    (error_entries l₁).length = (error_entries l₂).length :=
  (h.filterMap _).length_eq

theorem stats_before_perm {l₁ l₂ : List JobOutcome} (h : l₁.Perm l₂) :
    stats_before (size_entries l₁) = stats_before (size_entries l₂) :=
  List.Perm.sum_eq ((h.map _).map _)

theorem stats_after_perm {l₁ l₂ : List JobOutcome} (h : l₁.Perm l₂) :
    stats_after (size_entries l₁) = stats_after (size_entries l₂) :=
  List.Perm.sum_eq ((h.map _).map _)

/-- C2: over `N` discovered files the aggregation of `main` records exactly
`N` outcomes in every dispatch mode (verify fan-out, sequential-wide
re-encode, fan-out re-encode) for every worker count, and the derived
statistics — error count and cumulative before/after sizes — take the
same value on any completion order of the same outcomes. -/
theorem aggregator_count_and_order_invariance
    (cfg : Config) (directory : String) (versionOut : Option String)
    (files : List String) (vres : String → CmdResult)
    (re : String → Nat → JobOutcome)
    (reorder : List JobOutcome → List JobOutcome) (res : MainResult)
    (hperm : ∀ l, (reorder l).Perm l)
    (hrun : main_run cfg directory versionOut files vres re reorder
      = some res) :
    res.outcomes.length = files.length
    ∧ res.errorCount = (error_entries res.outcomes).length
    ∧ ∀ l : List JobOutcome, l.Perm res.outcomes →
        (error_entries l).length = res.errorCount
        ∧ stats_before (size_entries l) = stats_before (size_entries res.outcomes)
        ∧ stats_after (size_entries l) = stats_after (size_entries res.outcomes) := by
  obtain ⟨outcomes, hd, rfl⟩ := Option.map_eq_some'.mp hrun
  refine ⟨dispatch_run_length _ _ _ _ _ _ _ hperm hd, rfl, ?_⟩
  intro l hl
  exact ⟨error_entries_perm hl, stats_before_perm hl, stats_after_perm hl⟩

/-- C2 witness: a concrete two-file fan-out re-encode run observed in
reversed completion order. -/
theorem aggregator_count_and_order_invariance_w :
    resFan.outcomes.length = (["a.flac", "b.flac"] : List String).length
    ∧ resFan.errorCount = (error_entries resFan.outcomes).length
    ∧ ∀ l : List JobOutcome, l.Perm resFan.outcomes →
        (error_entries l).length = resFan.errorCount
        ∧ stats_before (size_entries l) = stats_before (size_entries resFan.outcomes)
        ∧ stats_after (size_entries l) = stats_after (size_entries resFan.outcomes) :=
  aggregator_count_and_order_invariance cfgFan "d" none ["a.flac", "b.flac"]
    vresOk reOk List.reverse resFan (fun l => List.reverse_perm l) rfl

/-- C5: a sequential-wide re-encode run (`-j`, not test mode) against an
encoder whose reported version does not match the minimum-version pattern
exits fatally before processing any file, producing no result and hence
zero outcomes. -/
theorem version_gate_blocks_run
    (cfg : Config) (directory : String) (vOut : String) (files : List String)
    (vres : String → CmdResult) (re : String → Nat → JobOutcome)
    (reorder : List JobOutcome → List JobOutcome)
    (ht : cfg.test_run = false) (hj : cfg.j = true)
    (hv : flac_version_ok vOut = false) :
    main_run cfg directory (some vOut) files vres re reorder = none := by
  simp [main_run, dispatch_run, ht, hj, hv]

/-- C5 witness: a concrete pre-threading version string "flac 1.4.3" aborts
a one-file sequential-wide run. -/
theorem version_gate_blocks_run_w :
    main_run cfgGate "d" (some "flac 1.4.3") ["a.flac"] vresOk reOk id
      = none :=
  version_gate_blocks_run cfgGate "d" "flac 1.4.3" ["a.flac"] vresOk reOk id
    rfl rfl (by decide)

/-- C6 (amended): when errors exist they are never both appended and
printed; with log-to-console every error is printed and none appended;
with log-to-file and a writable current directory every error is appended
and none printed; but with log-to-file and an unwritable current
directory the log is skipped and the errors are neither appended nor
printed individually. -/
theorem error_reporting_modes
    (log_to_disk cwdWritable : Bool) (elog : List (String × String))
    (hne : elog ≠ []) :
    ((report_errors log_to_disk cwdWritable elog).appendedToFile = []
      ∨ (report_errors log_to_disk cwdWritable elog).printedErrors = [])
    ∧ (log_to_disk = false →
        (report_errors log_to_disk cwdWritable elog).printedErrors = elog
        ∧ (report_errors log_to_disk cwdWritable elog).appendedToFile = [])
    ∧ (log_to_disk = true → cwdWritable = true →
        (report_errors log_to_disk cwdWritable elog).appendedToFile = elog
        ∧ (report_errors log_to_disk cwdWritable elog).printedErrors = [])
    ∧ (log_to_disk = true → cwdWritable = false →
        (report_errors log_to_disk cwdWritable elog).appendedToFile = []
        ∧ (report_errors log_to_disk cwdWritable elog).printedErrors = []) := by
  cases log_to_disk <;> cases cwdWritable <;>
    simp [report_errors, write_log, hne]

/-- C6 witness: one error under log-to-console configuration. -/
theorem error_reporting_modes_w :
    ((report_errors false true [("a.flac", "bad")]).appendedToFile = []
      ∨ (report_errors false true [("a.flac", "bad")]).printedErrors = [])
    ∧ ((false : Bool) = false →
        (report_errors false true [("a.flac", "bad")]).printedErrors
          = [("a.flac", "bad")]
        ∧ (report_errors false true [("a.flac", "bad")]).appendedToFile = [])
    ∧ ((false : Bool) = true → (true : Bool) = true →
        (report_errors false true [("a.flac", "bad")]).appendedToFile
          = [("a.flac", "bad")]
        ∧ (report_errors false true [("a.flac", "bad")]).printedErrors = [])
    ∧ ((false : Bool) = true → (true : Bool) = false →
        (report_errors false true [("a.flac", "bad")]).appendedToFile = []
        ∧ (report_errors false true [("a.flac", "bad")]).printedErrors = []) :=
  error_reporting_modes false true [("a.flac", "bad")] (by decide)

/-- C6 counterexample: with errors present, log-to-file configured and the
current directory unwritable, the errors are neither appended to the log
file nor printed individually, contradicting "never neither". -/
theorem log_unwritable_neither_reported :
    (report_errors true false [("a.flac", "bad")]).appendedToFile = []
    ∧ (report_errors true false [("a.flac", "bad")]).printedErrors = [] :=
  ⟨rfl, rfl⟩

/-- C7: the encoder command line carries `--threads=<n>` exactly when the
internal thread-count hint `n` exceeds 1, and fan-out mode submits every
job with hint 1, whose option list is exactly the five fixed flags with
no `--threads` option. -/
theorem threads_option_iff (p : String) (tc : Nat) :
    (("--threads=" ++ toString tc) ∈ reencode_options tc ↔ 1 < tc)
    ∧ reencode_command p tc = reencode_options tc ++ [p, "-o", p ++ ".tmp"]
    ∧ fanout_thread_hint = 1
    ∧ reencode_options fanout_thread_hint
        = ["flac", "--best", "--verify", "--padding=4096", "--silent"] := by
  refine ⟨⟨?_, ?_⟩, rfl, rfl, rfl⟩
  · intro hmem
    by_contra hle
    push_neg at hle
    interval_cases tc
    · revert hmem
      decide
    · revert hmem
      decide
  · intro h
    simp [reencode_options, h]

/-- C8: the loudness-tag command is built at most once per run, it is
present exactly when the flag is enabled, the run is a re-encode run and
the error log is empty, and its thread argument is `max(threadcount, 2)`
for every configured threadcount at least 1. -/
theorem rsgain_once_per_run
    (cfg : Config) (directory : String) (versionOut : Option String)
    (files : List String) (vres : String → CmdResult)
    (re : String → Nat → JobOutcome)
    (reorder : List JobOutcome → List JobOutcome) (res : MainResult)
    (htc : 1 ≤ cfg.thread_count)
    (hrun : main_run cfg directory versionOut files vres re reorder
      = some res) :
    res.rsgainCalls.length ≤ 1
    ∧ (res.rsgainCalls ≠ [] ↔
        (cfg.calc_rsgain = true ∧ cfg.test_run = false ∧ res.errorLog = []))
    ∧ (res.rsgainCalls ≠ [] →
        res.rsgainCalls
          = [["rsgain", "easy", "-m",
              toString (max cfg.thread_count 2), directory]]) := by
  obtain ⟨outcomes, hd, rfl⟩ := Option.map_eq_some'.mp hrun
  have hmax : (if cfg.thread_count = 1 then 2 else cfg.thread_count)
      = max cfg.thread_count 2 := by
    split <;> omega
  have hcalls : (assemble cfg directory outcomes).rsgainCalls
      = if cfg.calc_rsgain && !cfg.test_run && (error_entries outcomes).isEmpty
        then [rsgain_command directory cfg.thread_count] else [] := rfl
  have hlog : (assemble cfg directory outcomes).errorLog
      = error_entries outcomes := rfl
  refine ⟨?_, ?_, ?_⟩
  · rw [hcalls]
    split <;> simp
  · rw [hcalls, hlog]
    cases hcr : cfg.calc_rsgain <;> cases hts : cfg.test_run <;>
      simp [hcr, hts, List.isEmpty_iff]
  · intro hne
    rw [hcalls] at hne ⊢
    split at hne
    · rename_i hcond
      rw [if_pos hcond]
      simp [rsgain_command, hmax]
    · simp at hne

/-- C8 witness: a clean one-file sequential-wide run with loudness tagging
enabled and threadcount 1 invokes the command once with `-m 2`. -/
theorem rsgain_once_per_run_w :
    resSeq.rsgainCalls.length ≤ 1
    ∧ (resSeq.rsgainCalls ≠ [] ↔
        (cfgSeq.calc_rsgain = true ∧ cfgSeq.test_run = false
          ∧ resSeq.errorLog = []))
    ∧ (resSeq.rsgainCalls ≠ [] →
        resSeq.rsgainCalls
          = [["rsgain", "easy", "-m",
              toString (max cfgSeq.thread_count 2), "d"]]) :=
  rsgain_once_per_run cfgSeq "d" (some "flac 1.5.0") ["a.flac"] vresOk reOk
    id resSeq (by decide) (by decide)

/-- C9: verify mode is idempotent and read-only — over an already-valid
file set (every decode check exits cleanly with no diagnostic text) both
the first and the second verify run produce an empty error log, the
filesystem state after each run is the initial one, and every outcome
carries identical before- and after-size values. -/
theorem verify_idempotent_readonly
    (fs : FS) (files : List String) (vres : String → CmdResult)
    (hvalid : ∀ f ∈ files, vres f = CmdResult.success "") :
    error_entries (run_verify fs files vres).1 = []
    ∧ error_entries (run_verify (run_verify fs files vres).2 files vres).1 = []
    ∧ (run_verify fs files vres).2 = fs
    ∧ (run_verify (run_verify fs files vres).2 files vres).2 = fs
    ∧ ∀ o ∈ (run_verify fs files vres).1, o.sizeBefore = o.sizeAfter := by
  have hz : error_entries (files.map (fun f => verify_flac f (vres f))) = [] := by
    unfold error_entries
    rw [List.filterMap_eq_nil_iff]
    intro o ho
    obtain ⟨f, hf, rfl⟩ := List.mem_map.mp ho
    rw [hvalid f hf]
    rfl
  refine ⟨hz, hz, rfl, rfl, ?_⟩
  intro o ho
  obtain ⟨f, hf, rfl⟩ := List.mem_map.mp ho
  cases vres f <;> rfl

/-- C9 witness: two verify runs over one valid file. -/
theorem verify_idempotent_readonly_w :
    error_entries (run_verify fsA ["a.flac"] vresOk).1 = []
    ∧ error_entries
        (run_verify (run_verify fsA ["a.flac"] vresOk).2 ["a.flac"] vresOk).1 = []
    ∧ (run_verify fsA ["a.flac"] vresOk).2 = fsA
    ∧ (run_verify (run_verify fsA ["a.flac"] vresOk).2 ["a.flac"] vresOk).2 = fsA
    ∧ ∀ o ∈ (run_verify fsA ["a.flac"] vresOk).1, o.sizeBefore = o.sizeAfter :=
  verify_idempotent_readonly fsA ["a.flac"] vresOk (fun _ _ => rfl)

/-- C10: every verify outcome carries `None` in both size slots, and a test
run keeps the size-statistics list empty, so the compression report is
never rendered for it. -/
theorem verify_sizes_none_no_report
    (p : String) (r : CmdResult) (cfg : Config) (directory : String)
    (versionOut : Option String) (files : List String)
    (vres : String → CmdResult) (re : String → Nat → JobOutcome)
    (reorder : List JobOutcome → List JobOutcome) (res : MainResult)
    (hcfg : cfg.test_run = true)
    (hrun : main_run cfg directory versionOut files vres re reorder
      = some res) :
    (verify_flac p r).sizeBefore = none
    ∧ (verify_flac p r).sizeAfter = none
    ∧ res.sizeStats = []
    ∧ compression_report_shown cfg res = false := by
  obtain ⟨outcomes, hd, rfl⟩ := Option.map_eq_some'.mp hrun
  have hstats : (assemble cfg directory outcomes).sizeStats
      = if cfg.test_run then [] else size_entries outcomes := rfl
  refine ⟨by cases r <;> rfl, by cases r <;> rfl, ?_, ?_⟩
  · rw [hstats, hcfg]
    rfl
  · simp [compression_report_shown, hcfg]

/-- C10 witness: a concrete one-file test run records no size statistics
and renders no report. -/
theorem verify_sizes_none_no_report_w :
    (verify_flac "a.flac" (CmdResult.success "")).sizeBefore = none
    ∧ (verify_flac "a.flac" (CmdResult.success "")).sizeAfter = none
    ∧ resTest.sizeStats = []
    ∧ compression_report_shown cfgTest resTest = false :=
  verify_sizes_none_no_report "a.flac" (CmdResult.success "") cfgTest "d"
    none ["a.flac"] vresOk reOk id resTest rfl (by decide)
